import Mathlib

/-!
Verification of the arrow destination, the BigQuery source parser cursor, and
the DuckDB schema mapping of the connector_arrow repository, via a shallow
embedding of the relevant Rust code into Lean.

Conventions of the embedding:
* A Rust method `fn f(&mut self, ...) -> Result<(), E>` becomes a Lean
  function `State -> ... -> State × Option E` (the state is returned even on
  the error path, mirroring `&mut self`).
* A Rust method returning `Result<A, E>` while mutating `self` becomes
  `State -> ... -> State × Except E A`.
* Machine `usize` counters become `Nat` (none of the verified code relies on
  overflow behaviour).
-/

/-- Canonical column type tags of the destination type system
(`ArrowTypeSystem`).  The typesystem module is not under `src/`; a
representative subset of its tags is modelled here, which is enough for every
claim (no claim depends on the particular set of tags). -/
inductive ArrowType
  | aInt64
  | aBoolean
  | aUtf8
  deriving DecidableEq, Repr

/-- A typed cell value, tagged with its static Rust type (the `T` of
`consume::<T>`).  Payloads are carried so that appends are observable. -/
inductive CellValue
  | int64 (v : Int)
  | boolean (b : Bool)
  | utf8 (s : String)
  deriving DecidableEq, Repr

/-- The canonical tag associated with a value's static type
(the `TypeAssoc` association). -/
def CellValue.sty : CellValue → ArrowType
  | .int64 _ => ArrowType.aInt64
  | .boolean _ => ArrowType.aBoolean
  | .utf8 _ => ArrowType.aUtf8

/-- Modelled from the spec: `check::<T>(tag)` of the typesystem module (not
under `src/`) "verifies that the static type `T` is compatible with the
canonical type of a column, raising a mismatch otherwise".  Compatibility is
equality of the value's associated tag with the column tag. -/
def compat (tag : ArrowType) (v : CellValue) : Bool :=
  v.sty = tag

/-- Error kinds surfaced by the modelled destination code.  Constructors
mirror the error kinds of the source (`ConnectorXError::UnsupportedDataOrder`,
the `TypeMismatch` of `check`, the `anyhow` errors of `finish`/`get_one`,
and the shape error of `RecordBatch::try_new`).  `indexPanic` models a Rust
panic from an out-of-bounds slice index. -/
inductive ArrowError
  | typeMismatch
  | shapeMismatch
  | mutexPoisoned
  | writersOutstanding
  | unsupportedDataOrder
  | indexPanic
  deriving DecidableEq, Repr

/-- Modelled from the spec: the `DataOrder` enum of `data_order.rs` (not under
`src/`), with the two orders the spec names. -/
inductive DataOrder
  | rowMajor
  | columnMajor
  deriving DecidableEq, Repr

/-- A record batch is modelled by its list of columns, each column the list of
cell values appended to the corresponding builder. -/
abbrev RecordBatch := List (List CellValue)

/-- The equal-column-length validation performed by `RecordBatch::try_new`:
all columns must have the length of the first. -/
def rectangular (cols : RecordBatch) : Bool :=
  match cols with
  | [] => true
  | c :: rest => rest.all (fun d => d.length = c.length)

/-- Length of the `i`-th column of a builder vector (empty when out of
range); a convenience for stating invariants. -/
def colLen (bs : List (List CellValue)) (i : Nat) : Nat :=
  (bs.getD i []).length

/-- `ArrowPartitionWriter` (destinations/arrow/mod.rs).  `data` is the
writer's view of the shared, mutex-guarded output list; in the single-writer
traces verified here it is carried inline. -/
structure ArrowPartitionWriter where
  schema : List ArrowType
  batch_size : Nat
  builders : Option (List (List CellValue))
  current_row : Nat
  current_col : Nat
  data : List RecordBatch
  deriving DecidableEq, Repr

/-- `ArrowPartitionWriter::flush`: take the builders (leaving `None`), build
the columns, validate them as a `RecordBatch` (equal lengths, else the try_new
error), push the batch onto the shared list and reset both counters.  When the
validation fails the builders have already been taken and are dropped, and the
counters are left untouched, exactly as in the source. -/
def flush (w : ArrowPartitionWriter) : ArrowPartitionWriter × Option ArrowError :=
  match w.builders with
  | none => (w, none)
  | some bs =>
    if rectangular bs then
      ({ w with builders := none, data := w.data ++ [bs],
                current_row := 0, current_col := 0 }, none)
    else ({ w with builders := none }, some ArrowError.shapeMismatch)

/-- `PartitionWriter::finalize` for `ArrowPartitionWriter`: a call to
`flush`. -/
def finalize (w : ArrowPartitionWriter) : ArrowPartitionWriter × Option ArrowError :=
  flush w

/-- `Consume::consume` for `ArrowPartitionWriter`: save the target column,
advance the cursor (wrap increments the row and resets the column), check the
static type against the column tag, lazily allocate the builders, append the
value to the target column's builder, and flush when `current_row` has reached
`batch_size`. -/
def consume (w : ArrowPartitionWriter) (v : CellValue) :
    ArrowPartitionWriter × Option ArrowError :=
  let col := w.current_col
  let w1 : ArrowPartitionWriter :=
    if w.current_col + 1 = w.schema.length then
      { w with current_row := w.current_row + 1, current_col := 0 }
    else
      { w with current_col := w.current_col + 1 }
  match w1.schema[col]? with
  | none => (w1, some ArrowError.indexPanic)
  | some tag =>
    if compat tag v then
      let bs0 := match w1.builders with
        | none => List.replicate w1.schema.length []
        | some bs => bs
      let bs1 := bs0.set col (bs0.getD col [] ++ [v])
      let w2 := { w1 with builders := some bs1 }
      if w2.batch_size ≤ w2.current_row then flush w2 else (w2, none)
    else (w1, some ArrowError.typeMismatch)

/-- Consume the cells of one row left to right, stopping at the first
error (the orchestration loop terminates a partition on error). -/
def consumeRow (w : ArrowPartitionWriter) :
    List CellValue → ArrowPartitionWriter × Option ArrowError
  | [] => (w, none)
  | v :: rest =>
    match consume w v with
    | (w', none) => consumeRow w' rest
    | (w', some e) => (w', some e)

/-- Consume a list of rows in order, stopping at the first error. -/
def consumeRows (w : ArrowPartitionWriter) :
    List (List CellValue) → ArrowPartitionWriter × Option ArrowError
  | [] => (w, none)
  | row :: rest =>
    match consumeRow w row with
    | (w', none) => consumeRows w' rest
    | (w', some e) => (w', some e)

/-- `ArrowPartitionWriter::new`: fresh writer over a given column tag vector
and batch size, with no builders, zeroed counters, and a handle onto the (here
still empty) shared output list. -/
def freshWriter (ts : List ArrowType) (B : Nat) : ArrowPartitionWriter :=
  { schema := ts, batch_size := B, builders := none,
    current_row := 0, current_col := 0, data := [] }

/-- The reachable-state invariant of a partition writer mid-extraction:
`ρ` full rows are pending in the builders, `j` cells of the next row have
already been appended, and `d` is the list of batches pushed so far. -/
def WriterInv (ts : List ArrowType) (B ρ j : Nat) (d : List RecordBatch)
    (w : ArrowPartitionWriter) : Prop :=
  w.schema = ts ∧ w.batch_size = B ∧ w.current_col = j ∧ w.current_row = ρ ∧
  w.data = d ∧
  (if ρ = 0 ∧ j = 0 then w.builders = none
   else ∃ bs, w.builders = some bs ∧ bs.length = ts.length ∧
     ∀ i, i < ts.length → colLen bs i = if i < j then ρ + 1 else ρ)

/-- Modelled from the spec: the `Schema` record of the typesystem module (not
under `src/`): "an ordered sequence of `(column_name, tag)`", stored as
parallel `names`/`types` vectors. -/
structure SchemaA where
  names : List String
  types : List ArrowType
  deriving DecidableEq, Repr

/-- `Schema::empty()`. -/
def SchemaA.empty : SchemaA := { names := [], types := [] }

/-- A realized arrow schema field (name and canonical type); the product of
`FNewField` realization. -/
structure SchemaField where
  name : String
  dtype : ArrowType
  deriving DecidableEq, Repr

/-- Modelled from the spec: `constants::RECORD_BATCH_SIZE` (constants.rs is
not under `src/`); the default batch size.  Its particular value is immaterial
to every claim. -/
def RECORD_BATCH_SIZE : Nat := 65536

/-- `ArrowDestination`.  `data` is the authoritative shared output list;
`outstandingWriters` counts the `Arc` clones of the output handle still held
by partition writers (`Arc::try_unwrap` in `finish` succeeds exactly when it
is zero); `dataPoisoned` is the poison flag of the output mutex. -/
structure ArrowDestination where
  schema : SchemaA
  arrow_schema : List SchemaField
  data : List RecordBatch
  dataPoisoned : Bool
  outstandingWriters : Nat
  batch_size : Nat
  deriving DecidableEq, Repr

/-- `ArrowDestination::default()` / `new()`. -/
def ArrowDestination.new : ArrowDestination :=
  { schema := SchemaA.empty, arrow_schema := [], data := [],
    dataPoisoned := false, outstandingWriters := 0,
    batch_size := RECORD_BATCH_SIZE }

/-- `ArrowDestination::new_with_batch_size`. -/
def new_with_batch_size (B : Nat) : ArrowDestination :=
  { ArrowDestination.new with batch_size := B }

/-- Modelled from the spec: `Realize::<FNewField>::realize(dt)?(name)`;
realization dispatch is exhaustive over the tag set, so over the modelled
tags it always succeeds with the field of that name and type. -/
def realize_new_field (dt : ArrowType) (name : String) : Except ArrowError SchemaField :=
  Except.ok { name := name, dtype := dt }

/-- The `Result`-collecting field realization loop of `set_schema`. -/
def realize_fields : List (String × ArrowType) → Except ArrowError (List SchemaField)
  | [] => Except.ok []
  | (h, dt) :: rest => do
    let f ← realize_new_field dt h
    let fs ← realize_fields rest
    Except.ok (f :: fs)

/-- `Destination::set_schema` for `ArrowDestination`: store the schema, then
realize one arrow field per column and install the realized arrow schema.
There is no column-count validation. -/
def set_schema (d : ArrowDestination) (s : SchemaA) :
    ArrowDestination × Option ArrowError :=
  let d1 := { d with schema := s }
  match realize_fields (s.names.zip s.types) with
  | Except.ok fields => ({ d1 with arrow_schema := fields }, none)
  | Except.error e => (d1, some e)

/-- `ArrowDestination::DATA_ORDERS`. -/
def DATA_ORDERS : List DataOrder := [DataOrder.columnMajor, DataOrder.rowMajor]

/-- `Destination::alloc_writer` for `ArrowDestination`: reject any order other
than `RowMajor` before touching any state; otherwise clone the output handle
(one more outstanding writer) and construct the partition writer over the
schema's type vector and the destination's batch size. -/
def alloc_writer (d : ArrowDestination) (ord : DataOrder) :
    ArrowDestination × Except ArrowError ArrowPartitionWriter :=
  if ord = DataOrder.rowMajor then
    ({ d with outstandingWriters := d.outstandingWriters + 1 },
     Except.ok { schema := d.schema.types, batch_size := d.batch_size,
                 builders := none, current_row := 0, current_col := 0,
                 data := d.data })
  else (d, Except.error ArrowError.unsupportedDataOrder)

/-- `ArrowDestination::finish`: unwrap exclusive ownership of the output
handle (fails while any writer still holds a clone), then unwrap the mutex
(fails if poisoned), returning the accumulated batch list. -/
def finish (d : ArrowDestination) : Except ArrowError (List RecordBatch) :=
  if d.outstandingWriters ≠ 0 then Except.error ArrowError.writersOutstanding
  else if d.dataPoisoned then Except.error ArrowError.mutexPoisoned
  else Except.ok d.data

/-- `ArrowDestination::get_one`: lock the output mutex (surfacing poisoning)
and `Vec::pop` one batch off the end of the list. -/
def get_one (d : ArrowDestination) :
    ArrowDestination × Except ArrowError (Option RecordBatch) :=
  if d.dataPoisoned then (d, Except.error ArrowError.mutexPoisoned)
  else ({ d with data := d.data.dropLast }, Except.ok d.data.getLast?)

/-- `BigQuerySourceParser` (sources/bigquery/mod.rs), restricted to the cursor
fields; the runtime handle, client and paged response feed only the I/O paths
and are not needed by any claim. -/
structure BigQuerySourceParser where
  ncols : Nat
  current_row : Nat
  current_col : Nat
  deriving DecidableEq, Repr

/-- `BigQuerySourceParser::next_loc`: return the current `(row, col)`, then
advance `current_row` by `(current_col + 1) / ncols` and set `current_col`
to `(current_col + 1) % ncols`.  (With `ncols = 0` the Rust code panics on
division by zero; the claims only concern `ncols ≥ 1`.) -/
def next_loc (p : BigQuerySourceParser) : (Nat × Nat) × BigQuerySourceParser :=
  ((p.current_row, p.current_col),
   { p with current_row := p.current_row + (p.current_col + 1) / p.ncols,
            current_col := (p.current_col + 1) % p.ncols })

/-- `arrow::datatypes::TimeUnit`. -/
inductive TimeUnit
  | second
  | millisecond
  | microsecond
  | nanosecond
  deriving DecidableEq, Repr

/-- `arrow::datatypes::DataType`, with payloads elided except for the
timestamp unit: `ty_from_arrow` matches every other payload with `_`, so the
elision does not affect the match. -/
inductive DataType
  | null
  | boolean
  | int8
  | int16
  | int32
  | int64
  | uint8
  | uint16
  | uint32
  | uint64
  | float16
  | float32
  | float64
  | timestamp (u : TimeUnit)
  | date32
  | date64
  | time32
  | time64
  | duration
  | interval
  | binary
  | fixedSizeBinary
  | largeBinary
  | utf8
  | largeUtf8
  | list
  | fixedSizeList
  | largeList
  | structType
  | union
  | dictionary
  | decimal128
  | decimal256
  | map
  | runEndEncoded
  | binaryView
  | utf8View
  | listView
  | largeListView
  deriving DecidableEq, Repr

/-- A Rust panic raised by the `unimplemented!` or `todo!` macro: the thread
aborts; no error value is returned to the caller. -/
inductive RustPanic
  | unimplementedMacro
  | todoMacro
  deriving DecidableEq, Repr

/-- `ty_from_arrow` (duckdb/schema.rs): the canonical-to-DuckDB native type
mapping.  Arms that the source leaves as `unimplemented!()` or `todo!()`
panic, modelled as `Except.error` of the corresponding panic. -/
def ty_from_arrow (dt : DataType) : Except RustPanic String :=
  match dt with
  | DataType.null => Except.ok ("BIGINT")
  | DataType.boolean => Except.ok ("BOOLEAN")
  | DataType.int8 => Except.ok ("TINYINT")
  | DataType.int16 => Except.ok ("SMALLINT")
  | DataType.int32 => Except.ok ("INTEGER")
  | DataType.int64 => Except.ok ("BIGINT")
  | DataType.uint8 => Except.ok ("UTINYINT")
  | DataType.uint16 => Except.ok ("USMALLINT")
  | DataType.uint32 => Except.ok ("UINTEGER")
  | DataType.uint64 => Except.ok ("UBIGINT")
  | DataType.float16 => Except.ok ("REAL")
  | DataType.float32 => Except.ok ("REAL")
  | DataType.float64 => Except.ok ("DOUBLE")
  | DataType.timestamp TimeUnit.nanosecond => Except.ok ("BIGINT")
  | DataType.timestamp TimeUnit.microsecond => Except.ok ("TIMESTAMP")
  | DataType.timestamp TimeUnit.millisecond => Except.ok ("BIGINT")
  | DataType.timestamp TimeUnit.second => Except.ok ("BIGINT")
  | DataType.date32 => Except.error RustPanic.unimplementedMacro
  | DataType.date64 => Except.error RustPanic.unimplementedMacro
  | DataType.time32 => Except.error RustPanic.unimplementedMacro
  | DataType.time64 => Except.error RustPanic.unimplementedMacro
  | DataType.duration => Except.error RustPanic.unimplementedMacro
  | DataType.interval => Except.error RustPanic.unimplementedMacro
  | DataType.binary => Except.ok ("BLOB")
  | DataType.fixedSizeBinary => Except.ok ("BLOB")
  | DataType.largeBinary => Except.ok ("BLOB")
  | DataType.utf8 => Except.ok ("VARCHAR")
  | DataType.largeUtf8 => Except.ok ("VARCHAR")
  | DataType.list => Except.error RustPanic.unimplementedMacro
  | DataType.fixedSizeList => Except.error RustPanic.unimplementedMacro
  | DataType.largeList => Except.error RustPanic.unimplementedMacro
  | DataType.structType => Except.error RustPanic.unimplementedMacro
  | DataType.union => Except.error RustPanic.unimplementedMacro
  | DataType.dictionary => Except.error RustPanic.unimplementedMacro
  | DataType.decimal128 => Except.error RustPanic.unimplementedMacro
  | DataType.decimal256 => Except.error RustPanic.unimplementedMacro
  | DataType.map => Except.error RustPanic.unimplementedMacro
  | DataType.runEndEncoded => Except.error RustPanic.unimplementedMacro
  | DataType.binaryView => Except.error RustPanic.todoMacro
  | DataType.utf8View => Except.error RustPanic.todoMacro
  | DataType.listView => Except.error RustPanic.todoMacro
  | DataType.largeListView => Except.error RustPanic.todoMacro

/-- Modelled from the spec: `util::escape::escaped_ident` (not under `src/`),
standard SQL identifier double-quoting.  Only its totality matters to the
claims; no claim depends on the exact escaping. -/
def escaped_ident (s : String) : String :=
  "\"" ++ s ++ "\""

/-- An arrow schema field as consumed by `table_create` (name, data type,
nullability). -/
structure ArrowField where
  name : String
  dtype : DataType
  nullable : Bool
  deriving DecidableEq, Repr

/-- The per-field column definition built inside `table_create`: native type
via `ty_from_arrow` (whose panics propagate), nullability treating `Null`
columns as nullable. -/
def column_def (f : ArrowField) : Except RustPanic String := do
  let ty ← ty_from_arrow f.dtype
  let is_nullable := f.nullable || f.dtype = DataType.null
  let not_null := if is_nullable then "" else " NOT NULL"
  Except.ok (escaped_ident f.name ++ " " ++ ty ++ not_null)

/-- The column definition list of `table_create`, comma-joined. -/
def column_defs : List ArrowField → Except RustPanic (List String)
  | [] => Except.ok []
  | f :: rest => do
    let c ← column_def f
    let cs ← column_defs rest
    Except.ok (c :: cs)

/-- `SchemaEdit::table_create` for `DuckDBConnection`, up to the DDL string it
sends to the database (the execution itself is the external DuckDB engine):
a panic from `ty_from_arrow` on any field propagates and aborts the call. -/
def table_create_ddl (name : String) (fields : List ArrowField) :
    Except RustPanic String := do
  let cs ← column_defs fields
  Except.ok ("CREATE TABLE " ++ escaped_ident name ++ " (" ++
    String.intercalate (",") cs ++ ");")

-- Sanity checks of the embedding on concrete traces.
example :
    (consumeRows (freshWriter [ArrowType.aInt64] 2)
      [[CellValue.int64 1], [CellValue.int64 2], [CellValue.int64 3]]).2 = none := by
  decide

example :
    (finalize (consumeRows (freshWriter [ArrowType.aInt64] 2)
      [[CellValue.int64 1], [CellValue.int64 2], [CellValue.int64 3]]).1).1.data =
      [[[CellValue.int64 1, CellValue.int64 2]], [[CellValue.int64 3]]] := by
  decide

example :
    (consume (freshWriter [ArrowType.aInt64] 2) (CellValue.utf8 ("x"))).2 =
      some ArrowError.typeMismatch := by
  decide

/-- Normal-form equation for a type-correct `consume`: cursor advanced, value appended, then the batch-size check. -/
theorem consume_ok (w : ArrowPartitionWriter) (v : CellValue)
    (hcol : w.current_col < w.schema.length)
    (hv : compat (w.schema.getD w.current_col ArrowType.aInt64) v = true) :
    consume w v =
      (let bs0 := w.builders.getD (List.replicate w.schema.length [])
       let w2 : ArrowPartitionWriter :=
        { schema := w.schema, batch_size := w.batch_size,
          builders := some (bs0.set w.current_col (bs0.getD w.current_col [] ++ [v])),
          current_row := if w.current_col + 1 = w.schema.length
            then w.current_row + 1 else w.current_row,
          current_col := if w.current_col + 1 = w.schema.length
            then 0 else w.current_col + 1,
          data := w.data }
       if w.batch_size ≤ w2.current_row then flush w2 else (w2, none)) := by
  obtain ⟨ts0, B0, bd, cr, cc, dat⟩ := w
  simp only at hcol hv ⊢
  have hget : ts0[cc]? = some (ts0.getD cc ArrowType.aInt64) := by
    rw [List.getD_eq_getElem?_getD, List.getElem?_eq_getElem hcol]
    rfl
  by_cases hwrap : cc + 1 = ts0.length
  · cases bd with
    | none =>
      simp only [consume, if_pos hwrap, hget, Option.getD]
      rw [if_pos hv]
    | some bs =>
      simp only [consume, if_pos hwrap, hget, Option.getD]
      rw [if_pos hv]
  · cases bd with
    | none =>
      simp only [consume, if_neg hwrap, hget, Option.getD]
      rw [if_pos hv]
    | some bs =>
      simp only [consume, if_neg hwrap, hget, Option.getD]
      rw [if_pos hv]

theorem colLen_set_self (bs : List (List CellValue)) (i : Nat) (x : List CellValue)
    (h : i < bs.length) : colLen (bs.set i x) i = x.length := by
  simp [colLen, List.getD_eq_getElem?_getD, List.getElem?_set_self h]

theorem colLen_set_ne (bs : List (List CellValue)) (i j : Nat) (x : List CellValue)
    (h : i ≠ j) : colLen (bs.set i x) j = colLen bs j := by
  simp [colLen, List.getD_eq_getElem?_getD, List.getElem?_set_ne h]

theorem colLen_replicate (n i : Nat) (h : i < n) :
    colLen (List.replicate n ([] : List CellValue)) i = 0 := by
  simp [colLen, List.getD_eq_getElem?_getD, List.getElem?_replicate, h]

theorem getD_replicate_nil (n i : Nat) :
    (List.replicate n ([] : List CellValue)).getD i [] = [] := by
  rw [List.getD_eq_getElem?_getD, List.getElem?_replicate]
  by_cases h : i < n <;> simp [h]

theorem rectangular_of_const (bs : List (List CellValue)) (m : Nat)
    (h : ∀ i, i < bs.length → colLen bs i = m) : rectangular bs = true := by
  cases bs with
  | nil => rfl
  | cons c rest =>
    have hc : c.length = m := h 0 (Nat.succ_pos _)
    simp only [rectangular, List.all_eq_true, decide_eq_true_eq]
    intro d hd
    obtain ⟨i, hi, rfl⟩ := List.mem_iff_getElem.mp hd
    have h2 := h (i + 1) (by simpa using Nat.succ_lt_succ hi)
    have : colLen (c :: rest) (i + 1) = rest[i].length := by
      simp [colLen, List.getD_eq_getElem?_getD, List.getElem?_eq_getElem hi]
    rw [this] at h2
    rw [h2, hc]


/-- Mid-row consume: no wrap, no flush. -/
theorem consume_mid (w : ArrowPartitionWriter) (v : CellValue)
    (hcol : w.current_col + 1 < w.schema.length)
    (hv : compat (w.schema.getD w.current_col ArrowType.aInt64) v = true)
    (hrow : w.current_row < w.batch_size) :
    consume w v =
      ({ w with
          builders := some ((w.builders.getD (List.replicate w.schema.length [])).set
            w.current_col
            ((w.builders.getD (List.replicate w.schema.length [])).getD w.current_col [] ++ [v])),
          current_col := w.current_col + 1 }, none) := by
  rw [consume_ok w v (Nat.lt_of_succ_lt hcol) hv]
  have hnw : ¬ (w.current_col + 1 = w.schema.length) := Nat.ne_of_lt hcol
  simp only [if_neg hnw]
  rw [if_neg (Nat.not_le.mpr hrow)]

/-- Row-completing consume that stays under the batch size: wrap, no flush. -/
theorem consume_wrap (w : ArrowPartitionWriter) (v : CellValue)
    (hcol : w.current_col + 1 = w.schema.length)
    (hv : compat (w.schema.getD w.current_col ArrowType.aInt64) v = true)
    (hrow : w.current_row + 1 < w.batch_size) :
    consume w v =
      ({ w with
          builders := some ((w.builders.getD (List.replicate w.schema.length [])).set
            w.current_col
            ((w.builders.getD (List.replicate w.schema.length [])).getD w.current_col [] ++ [v])),
          current_col := 0, current_row := w.current_row + 1 }, none) := by
  have hc : w.current_col < w.schema.length := hcol ▸ Nat.lt_succ_self _
  rw [consume_ok w v hc hv]
  simp only [if_pos hcol]
  rw [if_neg (Nat.not_le.mpr hrow)]

/-- Row-completing consume that reaches the batch size: wrap, then flush of a
rectangular builder vector. -/
theorem consume_wrap_flush (w : ArrowPartitionWriter) (v : CellValue)
    (hcol : w.current_col + 1 = w.schema.length)
    (hv : compat (w.schema.getD w.current_col ArrowType.aInt64) v = true)
    (hrow : w.batch_size ≤ w.current_row + 1)
    (hrect : rectangular ((w.builders.getD (List.replicate w.schema.length [])).set
        w.current_col
        ((w.builders.getD (List.replicate w.schema.length [])).getD w.current_col [] ++ [v])) = true) :
    consume w v =
      ({ w with
          builders := none,
          data := w.data ++ [(w.builders.getD (List.replicate w.schema.length [])).set
            w.current_col
            ((w.builders.getD (List.replicate w.schema.length [])).getD w.current_col [] ++ [v])],
          current_col := 0, current_row := 0 }, none) := by
  have hc : w.current_col < w.schema.length := hcol ▸ Nat.lt_succ_self _
  rw [consume_ok w v hc hv]
  simp only [if_pos hcol]
  rw [if_pos hrow]
  simp only [flush, hrect, if_pos]

theorem consume_step (ts : List ArrowType) (B ρ j : Nat) (d : List RecordBatch)
    (w : ArrowPartitionWriter) (v : CellValue)
    (hInv : WriterInv ts B ρ j d w) (hj : j < ts.length) (hρ : ρ < B)
    (hv : compat (ts.getD j ArrowType.aInt64) v = true) :
    (j + 1 < ts.length → (consume w v).2 = none ∧ WriterInv ts B ρ (j + 1) d (consume w v).1) ∧
    (j + 1 = ts.length → ρ + 1 < B → (consume w v).2 = none ∧ WriterInv ts B (ρ + 1) 0 d (consume w v).1) ∧
    (j + 1 = ts.length → ρ + 1 = B → (consume w v).2 = none ∧
      ∃ batch, (consume w v).1.data = d ++ [batch] ∧ batch.length = ts.length ∧
        (∀ i, i < ts.length → colLen batch i = B) ∧
        WriterInv ts B 0 0 (d ++ [batch]) (consume w v).1) := by
  obtain ⟨hsch, hB, hcol, hrow, hdata, hbuild⟩ := hInv
  have hbs0len : (w.builders.getD (List.replicate w.schema.length [])).length = ts.length := by
    by_cases hz : ρ = 0 ∧ j = 0
    · rw [if_pos hz] at hbuild
      simp [hbuild, hsch]
    · rw [if_neg hz] at hbuild
      obtain ⟨bs, hb, hlen, _⟩ := hbuild
      simp [hb, hlen]
  have hbs0cl : ∀ i, i < ts.length →
      colLen (w.builders.getD (List.replicate w.schema.length [])) i =
        if i < j then ρ + 1 else ρ := by
    by_cases hz : ρ = 0 ∧ j = 0
    · rw [if_pos hz] at hbuild
      intro i hi
      obtain ⟨hz1, hz2⟩ := hz
      subst hz1; subst hz2
      simp only [if_neg (Nat.not_lt_zero i)]
      rw [hbuild]
      simpa [hsch] using colLen_replicate ts.length i hi
    · rw [if_neg hz] at hbuild
      obtain ⟨bs, hb, hlen, hcl⟩ := hbuild
      rw [hb]
      exact hcl
  have happ : ∀ i, i < ts.length →
      colLen ((w.builders.getD (List.replicate w.schema.length [])).set w.current_col
        ((w.builders.getD (List.replicate w.schema.length [])).getD w.current_col [] ++ [v])) i =
        if i < j + 1 then ρ + 1 else ρ := by
    intro i hi
    by_cases hij : i = j
    · subst hij
      rw [hcol, colLen_set_self _ _ _ (by rw [hbs0len]; exact hj)]
      have := hbs0cl i hi
      rw [if_neg (Nat.lt_irrefl i)] at this
      simp [List.length_append, colLen] at this ⊢
      rw [this]
    · rw [hcol, colLen_set_ne _ _ _ _ (fun h => hij h.symm)]
      rw [hbs0cl i hi]
      rcases Nat.lt_or_ge i j with h1 | h1
      · rw [if_pos h1, if_pos (Nat.lt_succ_of_lt h1)]
      · have h2 : ¬ i < j := Nat.not_lt.mpr h1
        have h3 : ¬ i < j + 1 := by
          intro hcon
          exact hij (Nat.le_antisymm (Nat.lt_succ_iff.mp hcon) h1)
        rw [if_neg h2, if_neg h3]
  have happlen : ((w.builders.getD (List.replicate w.schema.length [])).set w.current_col
        ((w.builders.getD (List.replicate w.schema.length [])).getD w.current_col [] ++ [v])).length
        = ts.length := by
    rw [List.length_set]
    exact hbs0len
  have hcomp : compat (w.schema.getD w.current_col ArrowType.aInt64) v = true := by
    rw [hsch, hcol]
    exact hv
  refine ⟨?_, ?_, ?_⟩
  · -- mid-row step
    intro hlt
    have heq := consume_mid w v (by rw [hsch, hcol]; exact hlt) hcomp
      (by rw [hrow, hB]; exact hρ)
    rw [heq]
    refine ⟨rfl, hsch, hB, by simp [hcol], hrow, hdata, ?_⟩
    rw [if_neg (by simp : ¬ (ρ = 0 ∧ j + 1 = 0))]
    exact ⟨_, rfl, happlen, happ⟩
  · -- wrap, stay under the batch size
    intro hwr hlt
    have heq := consume_wrap w v (by rw [hsch, hcol]; exact hwr) hcomp
      (by rw [hrow, hB]; exact hlt)
    rw [heq]
    refine ⟨rfl, hsch, hB, rfl, by simp [hrow], hdata, ?_⟩
    rw [if_neg (by simp : ¬ (ρ + 1 = 0 ∧ (0 : Nat) = 0))]
    refine ⟨_, rfl, happlen, ?_⟩
    intro i hi
    rw [happ i hi]
    have : i < j + 1 := by rw [hwr]; exact hi
    rw [if_pos this, if_neg (Nat.not_lt_zero i)]
  · -- wrap into a flush
    intro hwr hfull
    have hrect : rectangular ((w.builders.getD (List.replicate w.schema.length [])).set w.current_col
        ((w.builders.getD (List.replicate w.schema.length [])).getD w.current_col [] ++ [v])) = true := by
      apply rectangular_of_const _ (ρ + 1)
      intro i hi
      rw [happlen] at hi
      rw [happ i hi]
      have : i < j + 1 := by rw [hwr]; exact hi
      rw [if_pos this]
    have heq := consume_wrap_flush w v (by rw [hsch, hcol]; exact hwr) hcomp
      (by rw [hrow, hB]; exact Nat.le_of_eq hfull.symm) hrect
    rw [heq]
    refine ⟨rfl, ?_⟩
    refine ⟨_, by simp [hdata], happlen, ?_, ?_⟩
    · intro i hi
      rw [happ i hi]
      have : i < j + 1 := by rw [hwr]; exact hi
      rw [if_pos this, hfull]
    · refine ⟨hsch, hB, rfl, rfl, by simp [hdata], ?_⟩
      rw [if_pos ⟨rfl, rfl⟩]

theorem consumeRow_seg (ts : List ArrowType) (B : Nat) (cells : List CellValue) :
    ∀ (j ρ : Nat) (d : List RecordBatch) (w : ArrowPartitionWriter),
    WriterInv ts B ρ j d w → ρ < B → j < ts.length → j + cells.length = ts.length →
    (∀ i, i < cells.length →
      compat (ts.getD (j + i) ArrowType.aInt64) (cells.getD i (CellValue.int64 0)) = true) →
    (consumeRow w cells).2 = none ∧
    (if ρ + 1 = B then
      ∃ batch, (consumeRow w cells).1.data = d ++ [batch] ∧ batch.length = ts.length ∧
        (∀ i, i < ts.length → colLen batch i = B) ∧
        WriterInv ts B 0 0 (d ++ [batch]) (consumeRow w cells).1
     else WriterInv ts B (ρ + 1) 0 d (consumeRow w cells).1) := by
  induction cells with
  | nil =>
    intro j ρ d w _ _ hj hlen _
    exact absurd hlen (by simp only [List.length_nil, Nat.add_zero]; exact Nat.ne_of_lt hj)
  | cons v rest ih =>
    intro j ρ d w hInv hρ hj hlen hcomp
    have hv0 : compat (ts.getD j ArrowType.aInt64) v = true := by
      have := hcomp 0 (Nat.succ_pos _)
      simpa using this
    have hstep := consume_step ts B ρ j d w v hInv hj hρ hv0
    rcases hcv : consume w v with ⟨w', e⟩
    cases rest with
    | nil =>
      have hwr : j + 1 = ts.length := by simpa using hlen
      by_cases hfull : ρ + 1 = B
      · obtain ⟨he, batch, hbd, hbl, hbc, hInv'⟩ := hstep.2.2 hwr hfull
        rw [hcv] at he hbd hInv'
        subst he
        rw [if_pos hfull]
        exact ⟨by simp [consumeRow, hcv], batch, by simpa [consumeRow, hcv] using hbd,
          hbl, hbc, by simpa [consumeRow, hcv] using hInv'⟩
      · have hlt : ρ + 1 < B := Nat.lt_of_le_of_ne (Nat.succ_le_of_lt hρ) hfull
        obtain ⟨he, hInv'⟩ := hstep.2.1 hwr hlt
        rw [hcv] at he hInv'
        subst he
        rw [if_neg hfull]
        simpa [consumeRow, hcv] using hInv'
    | cons v2 rest2 =>
      have hmid : j + 1 < ts.length := by
        simp only [List.length_cons] at hlen
        omega
      obtain ⟨he, hInv'⟩ := hstep.1 hmid
      rw [hcv] at he hInv'
      subst he
      have hcomp' : ∀ i, i < (v2 :: rest2).length →
          compat (ts.getD (j + 1 + i) ArrowType.aInt64)
            ((v2 :: rest2).getD i (CellValue.int64 0)) = true := by
        intro i hi
        have := hcomp (i + 1) (by simpa using Nat.succ_lt_succ hi)
        have harith : j + (i + 1) = j + 1 + i := by omega
        rw [harith] at this
        simpa using this
      have hlen' : j + 1 + (v2 :: rest2).length = ts.length := by
        simp only [List.length_cons] at hlen ⊢
        omega
      have hrest := ih (j + 1) ρ d w' hInv' hρ hmid hlen' hcomp'
      simpa [consumeRow, hcv] using hrest

theorem consumeRows_spec (ts : List ArrowType) (B : Nat) (rows : List (List CellValue)) :
    ∀ (ρ : Nat) (d : List RecordBatch) (w : ArrowPartitionWriter),
    WriterInv ts B ρ 0 d w → ρ < B → 0 < ts.length →
    (∀ row ∈ rows, row.length = ts.length ∧
      ∀ i, i < ts.length →
        compat (ts.getD i ArrowType.aInt64) (row.getD i (CellValue.int64 0)) = true) →
    (consumeRows w rows).2 = none ∧
    ∃ batches, (consumeRows w rows).1.data = d ++ batches ∧
      batches.length = (ρ + rows.length) / B ∧
      (∀ b ∈ batches, b.length = ts.length ∧ ∀ i, i < ts.length → colLen b i = B) ∧
      WriterInv ts B ((ρ + rows.length) % B) 0 (d ++ batches) (consumeRows w rows).1 := by
  induction rows with
  | nil =>
    intro ρ d w hInv hρ hn _
    refine ⟨rfl, [], ?_, ?_, ?_, ?_⟩
    · simpa [consumeRows] using hInv.2.2.2.2.1
    · simp [Nat.div_eq_of_lt hρ]
    · intro b hb
      exact absurd hb (List.not_mem_nil b)
    · simpa [consumeRows, Nat.mod_eq_of_lt hρ] using hInv
  | cons row rest ih =>
    intro ρ d w hInv hρ hn hrows
    have hB0 : 0 < B := Nat.lt_of_le_of_lt (Nat.zero_le ρ) hρ
    obtain ⟨hrl, hrc⟩ := hrows row (List.mem_cons_self row rest)
    have hseg := consumeRow_seg ts B row 0 ρ d w hInv hρ hn
      (by simpa using hrl)
      (by intro i hi
          rw [hrl] at hi
          simpa using hrc i hi)
    rcases hcr : consumeRow w row with ⟨w1, e1⟩
    rw [hcr] at hseg
    obtain ⟨he1, hseg⟩ := hseg
    simp only at he1
    subst he1
    have hrows' : ∀ r ∈ rest, r.length = ts.length ∧
        ∀ i, i < ts.length →
          compat (ts.getD i ArrowType.aInt64) (r.getD i (CellValue.int64 0)) = true :=
      fun r hr => hrows r (List.mem_cons_of_mem row hr)
    by_cases hfull : ρ + 1 = B
    · rw [if_pos hfull] at hseg
      obtain ⟨batch, hbd, hbl, hbc, hInv'⟩ := hseg
      simp only at hbd hInv'
      obtain ⟨he2, batches', hd', hlen', hall', hInv''⟩ :=
        ih 0 (d ++ [batch]) w1 hInv' hB0 hn hrows'
      refine ⟨by simp [consumeRows, hcr, he2], batch :: batches', ?_, ?_, ?_, ?_⟩
      · simp only [consumeRows, hcr]
        rw [hd']
        simp
      · have harith : ρ + (row :: rest).length = rest.length + B := by
          simp only [List.length_cons]
          omega
        rw [harith, Nat.add_div_right _ hB0, List.length_cons, hlen']
        simp
      · intro b hb
        rcases List.mem_cons.mp hb with hb1 | hb2
        · subst hb1
          exact ⟨hbl, hbc⟩
        · exact hall' b hb2
      · simp only [consumeRows, hcr, List.length_cons]
        have harith : ρ + (rest.length + 1) = rest.length + B := by omega
        rw [harith, Nat.add_mod_right]
        have : d ++ batch :: batches' = (d ++ [batch]) ++ batches' := by simp
        rw [this]
        simpa using hInv''
    · rw [if_neg hfull] at hseg
      have hlt : ρ + 1 < B := Nat.lt_of_le_of_ne (Nat.succ_le_of_lt hρ) hfull
      obtain ⟨he2, batches', hd', hlen', hall', hInv''⟩ :=
        ih (ρ + 1) d w1 hseg hlt hn hrows'
      refine ⟨by simp [consumeRows, hcr, he2], batches', ?_, ?_, hall', ?_⟩
      · simp only [consumeRows, hcr]
        exact hd'
      · rw [hlen']
        simp only [List.length_cons]
        congr 1
        omega
      · simp only [consumeRows, hcr, List.length_cons]
        have harith : ρ + (rest.length + 1) = ρ + 1 + rest.length := by omega
        rw [harith]
        exact hInv''

theorem finalize_spec (ts : List ArrowType) (B ρ : Nat) (d : List RecordBatch)
    (w : ArrowPartitionWriter) (hInv : WriterInv ts B ρ 0 d w) (_hn : 0 < ts.length) :
    (finalize w).2 = none ∧
    (ρ = 0 → (finalize w).1.data = d) ∧
    (ρ ≠ 0 → ∃ batch, (finalize w).1.data = d ++ [batch] ∧ batch.length = ts.length ∧
      ∀ i, i < ts.length → colLen batch i = ρ) := by
  obtain ⟨hsch, hB, hcol, hrow, hdata, hbuild⟩ := hInv
  by_cases hz : ρ = 0
  · subst hz
    rw [if_pos ⟨rfl, rfl⟩] at hbuild
    refine ⟨?_, ?_, ?_⟩
    · simp [finalize, flush, hbuild]
    · intro _
      simp [finalize, flush, hbuild, hdata]
    · intro hcon
      exact absurd rfl hcon
  · rw [if_neg (by simp [hz])] at hbuild
    obtain ⟨bs, hb, hlen, hcl⟩ := hbuild
    have hcl' : ∀ i, i < ts.length → colLen bs i = ρ := by
      intro i hi
      rw [hcl i hi, if_neg (Nat.not_lt_zero i)]
    have hrect : rectangular bs = true := by
      apply rectangular_of_const _ ρ
      intro i hi
      rw [hlen] at hi
      exact hcl' i hi
    refine ⟨?_, ?_, ?_⟩
    · simp [finalize, flush, hb, hrect]
    · intro hcon
      exact absurd hcon hz
    · intro _
      exact ⟨bs, by simp [finalize, flush, hb, hrect, hdata], hlen, hcl'⟩

theorem ceil_div_eq (R B : Nat) (hB : 0 < B) :
    R / B + (if R % B = 0 then 0 else 1) = (R + B - 1) / B := by
  rcases Nat.eq_zero_or_pos (R % B) with h | h
  · rw [if_pos h]
    have hR : R = B * (R / B) := by
      have := Nat.div_add_mod R B
      omega
    have harith : R + B - 1 = B * (R / B) + (B - 1) := by omega
    rw [harith, Nat.mul_add_div hB, Nat.div_eq_of_lt (show B - 1 < B by omega)]
  · rw [if_neg (Nat.pos_iff_ne_zero.mp h)]
    have hmod : R % B < B := Nat.mod_lt _ hB
    have hR : R = B * (R / B) + R % B := (Nat.div_add_mod R B).symm
    have harith : R + B - 1 = B * (R / B + 1) + (R % B - 1) := by
      rw [Nat.mul_add, Nat.mul_one]
      omega
    rw [harith, Nat.mul_add_div hB, Nat.div_eq_of_lt (show R % B - 1 < B by omega)]

theorem col_mem_of_colLen (b : RecordBatch) (m : Nat)
    (hl : ∀ i, i < b.length → colLen b i = m) : ∀ c ∈ b, c.length = m := by
  intro c hc
  obtain ⟨i, hi, rfl⟩ := List.mem_iff_getElem.mp hc
  have := hl i hi
  rw [colLen, List.getD_eq_getElem?_getD, List.getElem?_eq_getElem hi] at this
  simpa using this

theorem freshWriter_inv (ts : List ArrowType) (B : Nat) :
    WriterInv ts B 0 0 [] (freshWriter ts B) := by
  refine ⟨rfl, rfl, rfl, rfl, rfl, ?_⟩
  rw [if_pos ⟨rfl, rfl⟩]
  rfl

/-- C1: for every partition writer with `batch_size = B ≥ 1` over `ncols ≥ 1`
columns, consuming `R` complete type-correct rows and then finalizing pushes
exactly `⌈R/B⌉` record batches, none of them empty; a zero-row partition
pushes no batch at all. -/
theorem c1_batching_bound (ts : List ArrowType) (B : Nat) (rows : List (List CellValue))
    (hB : 1 ≤ B) (hn : 1 ≤ ts.length)
    (hrows : ∀ row ∈ rows, row.length = ts.length ∧ ∀ i, i < ts.length →
      compat (ts.getD i ArrowType.aInt64) (row.getD i (CellValue.int64 0)) = true) :
    (consumeRows (freshWriter ts B) rows).2 = none ∧
    (finalize (consumeRows (freshWriter ts B) rows).1).2 = none ∧
    (finalize (consumeRows (freshWriter ts B) rows).1).1.data.length
      = (rows.length + B - 1) / B ∧
    (∀ b ∈ (finalize (consumeRows (freshWriter ts B) rows).1).1.data,
      b ≠ [] ∧ ∀ c ∈ b, 0 < c.length) ∧
    (rows = [] → (finalize (consumeRows (freshWriter ts B) rows).1).1.data = []) := by
  obtain ⟨he, batches, hd, hblen, hball, hInv⟩ :=
    consumeRows_spec ts B rows 0 [] (freshWriter ts B) (freshWriter_inv ts B) hB hn hrows
  simp only [Nat.zero_add, List.nil_append] at hblen hInv hd
  obtain ⟨hfe, hf0, hfpos⟩ :=
    finalize_spec ts B (rows.length % B) batches (consumeRows (freshWriter ts B) rows).1
      (by simpa using hInv) hn
  have hBpos : 0 < B := hB
  by_cases hz : rows.length % B = 0
  · have hdata := hf0 hz
    refine ⟨he, hfe, ?_, ?_, ?_⟩
    · rw [hdata, hblen, ← ceil_div_eq rows.length B hBpos, if_pos hz]
      omega
    · intro b hb
      rw [hdata] at hb
      obtain ⟨hbl, hbc⟩ := hball b hb
      have hc := col_mem_of_colLen b B (by rw [hbl]; exact hbc)
      refine ⟨?_, ?_⟩
      · intro hcon
        rw [hcon] at hbl
        exact absurd hbl.symm (by simpa using Nat.pos_iff_ne_zero.mp hn)
      · intro c hcmem
        rw [hc c hcmem]
        exact hBpos
    · intro hrows0
      subst hrows0
      rw [hdata]
      have : batches.length = 0 := by simpa using hblen
      exact List.length_eq_zero.mp this
  · obtain ⟨batch, hdata, hbl, hbc⟩ := hfpos hz
    refine ⟨he, hfe, ?_, ?_, ?_⟩
    · rw [hdata, List.length_append, hblen, List.length_singleton,
        ← ceil_div_eq rows.length B hBpos, if_neg hz]
    · intro b hb
      rw [hdata] at hb
      rcases List.mem_append.mp hb with hb1 | hb2
      · obtain ⟨hbl', hbc'⟩ := hball b hb1
        have hc := col_mem_of_colLen b B (by rw [hbl']; exact hbc')
        refine ⟨?_, ?_⟩
        · intro hcon
          rw [hcon] at hbl'
          exact absurd hbl'.symm (by simpa using Nat.pos_iff_ne_zero.mp hn)
        · intro c hcmem
          rw [hc c hcmem]
          exact hBpos
      · have hbeq : b = batch := List.mem_singleton.mp hb2
        subst hbeq
        have hc := col_mem_of_colLen b (rows.length % B) (by rw [hbl]; exact hbc)
        refine ⟨?_, ?_⟩
        · intro hcon
          rw [hcon] at hbl
          exact absurd hbl.symm (by simpa using Nat.pos_iff_ne_zero.mp hn)
        · intro c hcmem
          rw [hc c hcmem]
          exact Nat.pos_of_ne_zero hz
    · intro hrows0
      subst hrows0
      simp at hz

/-- C2: every record batch such a writer pushes is rectangular (all columns of
equal length) with length at most `batch_size`; moreover the flush inside
`consume` can change the output list only on a consume that completes a row
(the cursor wraps to column 0), so a pushed batch never contains a partial
row. -/
theorem c2_rectangular (ts : List ArrowType) (B : Nat) (rows : List (List CellValue))
    (hB : 1 ≤ B) (hn : 1 ≤ ts.length)
    (hrows : ∀ row ∈ rows, row.length = ts.length ∧ ∀ i, i < ts.length →
      compat (ts.getD i ArrowType.aInt64) (row.getD i (CellValue.int64 0)) = true) :
    ((consumeRows (freshWriter ts B) rows).2 = none ∧
     (finalize (consumeRows (freshWriter ts B) rows).1).2 = none ∧
     ∀ b ∈ (finalize (consumeRows (freshWriter ts B) rows).1).1.data,
       b.length = ts.length ∧
       (∀ c1 ∈ b, ∀ c2 ∈ b, c1.length = c2.length) ∧
       (∀ c ∈ b, c.length ≤ B)) ∧
    (∀ (w : ArrowPartitionWriter) (v : CellValue), w.current_row < w.batch_size →
       (consume w v).1.data ≠ w.data → w.current_col + 1 = w.schema.length) := by
  constructor
  · obtain ⟨he, batches, hd, hblen, hball, hInv⟩ :=
      consumeRows_spec ts B rows 0 [] (freshWriter ts B) (freshWriter_inv ts B) hB hn hrows
    simp only [Nat.zero_add, List.nil_append] at hblen hInv hd
    obtain ⟨hfe, hf0, hfpos⟩ :=
      finalize_spec ts B (rows.length % B) batches (consumeRows (freshWriter ts B) rows).1
        (by simpa using hInv) hn
    refine ⟨he, hfe, ?_⟩
    intro b hb
    have hmain : b.length = ts.length ∧ ∃ m, m ≤ B ∧ ∀ c ∈ b, c.length = m := by
      by_cases hz : rows.length % B = 0
      · rw [hf0 hz] at hb
        obtain ⟨hbl, hbc⟩ := hball b hb
        exact ⟨hbl, B, Nat.le_refl B, col_mem_of_colLen b B (by rw [hbl]; exact hbc)⟩
      · obtain ⟨batch, hdata, hbl, hbc⟩ := hfpos hz
        rw [hdata] at hb
        rcases List.mem_append.mp hb with hb1 | hb2
        · obtain ⟨hbl', hbc'⟩ := hball b hb1
          exact ⟨hbl', B, Nat.le_refl B, col_mem_of_colLen b B (by rw [hbl']; exact hbc')⟩
        · have hbeq : b = batch := List.mem_singleton.mp hb2
          subst hbeq
          exact ⟨hbl, rows.length % B, Nat.le_of_lt (Nat.mod_lt _ hB),
            col_mem_of_colLen b (rows.length % B) (by rw [hbl]; exact hbc)⟩
    obtain ⟨hbl, m, hm, hc⟩ := hmain
    refine ⟨hbl, ?_, ?_⟩
    · intro c1 h1 c2 h2
      rw [hc c1 h1, hc c2 h2]
    · intro c hcm
      rw [hc c hcm]
      exact hm
  · intro w v hrow hdata
    by_cases hwrap : w.current_col + 1 = w.schema.length
    · exact hwrap
    · exfalso
      apply hdata
      unfold consume
      simp only [if_neg hwrap]
      cases hg : w.schema[w.current_col]? with
      | none => rfl
      | some tag =>
        by_cases hcv : compat tag v
        · simp only [if_pos hcv]
          rw [if_neg (Nat.not_le.mpr hrow)]
        · simp only [if_neg hcv]

/-- Normal-form equation for a type-mismatched `consume`: the cursor has
already advanced, the check fails, and nothing else happens. -/
theorem consume_mismatch (w : ArrowPartitionWriter) (v : CellValue)
    (hcol : w.current_col < w.schema.length)
    (hv : compat (w.schema.getD w.current_col ArrowType.aInt64) v = false) :
    consume w v =
      (if w.current_col + 1 = w.schema.length then
        { w with current_row := w.current_row + 1, current_col := 0 }
       else { w with current_col := w.current_col + 1 },
       some ArrowError.typeMismatch) := by
  have hget : w.schema[w.current_col]? = some (w.schema.getD w.current_col ArrowType.aInt64) := by
    rw [List.getD_eq_getElem?_getD, List.getElem?_eq_getElem hcol]
    rfl
  by_cases hwrap : w.current_col + 1 = w.schema.length
  · simp only [consume, if_pos hwrap, hget, hv]
    rfl
  · simp only [consume, if_neg hwrap, hget, hv]
    rfl

theorem dropLast_append_getLast?_toList (l : List RecordBatch) :
    l.dropLast ++ l.getLast?.toList = l := by
  cases h : l.getLast? with
  | none => simp [List.getLast?_eq_none_iff.mp h]
  | some a =>
    have hne : l ≠ [] := by
      intro hc
      subst hc
      simp at h
    rw [List.getLast?_eq_getLast l hne] at h
    have ha : l.getLast hne = a := by
      injection h
    simp only [Option.toList]
    rw [← ha]
    exact List.dropLast_append_getLast hne

/-- C1 witness: one `Int64` column, batch size 2, three rows: two batches,
both nonempty. -/
theorem c1_batching_bound_witness :
    (consumeRows (freshWriter [ArrowType.aInt64] 2)
      [[CellValue.int64 1], [CellValue.int64 2], [CellValue.int64 3]]).2 = none ∧
    (finalize (consumeRows (freshWriter [ArrowType.aInt64] 2)
      [[CellValue.int64 1], [CellValue.int64 2], [CellValue.int64 3]]).1).2 = none ∧
    (finalize (consumeRows (freshWriter [ArrowType.aInt64] 2)
      [[CellValue.int64 1], [CellValue.int64 2], [CellValue.int64 3]]).1).1.data.length = 2 ∧
    (∀ b ∈ (finalize (consumeRows (freshWriter [ArrowType.aInt64] 2)
      [[CellValue.int64 1], [CellValue.int64 2], [CellValue.int64 3]]).1).1.data,
      b ≠ [] ∧ ∀ c ∈ b, 0 < c.length) ∧
    ([[CellValue.int64 1], [CellValue.int64 2], [CellValue.int64 3]] =
        ([] : List (List CellValue)) →
      (finalize (consumeRows (freshWriter [ArrowType.aInt64] 2)
        [[CellValue.int64 1], [CellValue.int64 2], [CellValue.int64 3]]).1).1.data = []) :=
  c1_batching_bound [ArrowType.aInt64] 2
    [[CellValue.int64 1], [CellValue.int64 2], [CellValue.int64 3]]
    (by decide) (by decide) (by decide)

/-- C2 witness: two columns, batch size 2, three rows: all batches are
rectangular with column length at most 2. -/
theorem c2_rectangular_witness :
    ((consumeRows (freshWriter [ArrowType.aInt64, ArrowType.aUtf8] 2)
      [[CellValue.int64 1, CellValue.utf8 ("a")],
       [CellValue.int64 2, CellValue.utf8 ("b")],
       [CellValue.int64 3, CellValue.utf8 ("c")]]).2 = none ∧
     (finalize (consumeRows (freshWriter [ArrowType.aInt64, ArrowType.aUtf8] 2)
      [[CellValue.int64 1, CellValue.utf8 ("a")],
       [CellValue.int64 2, CellValue.utf8 ("b")],
       [CellValue.int64 3, CellValue.utf8 ("c")]]).1).2 = none ∧
     ∀ b ∈ (finalize (consumeRows (freshWriter [ArrowType.aInt64, ArrowType.aUtf8] 2)
      [[CellValue.int64 1, CellValue.utf8 ("a")],
       [CellValue.int64 2, CellValue.utf8 ("b")],
       [CellValue.int64 3, CellValue.utf8 ("c")]]).1).1.data,
       b.length = [ArrowType.aInt64, ArrowType.aUtf8].length ∧
       (∀ c1 ∈ b, ∀ c2 ∈ b, c1.length = c2.length) ∧
       (∀ c ∈ b, c.length ≤ 2)) ∧
    (∀ (w : ArrowPartitionWriter) (v : CellValue), w.current_row < w.batch_size →
       (consume w v).1.data ≠ w.data → w.current_col + 1 = w.schema.length) :=
  c2_rectangular [ArrowType.aInt64, ArrowType.aUtf8] 2
    [[CellValue.int64 1, CellValue.utf8 ("a")],
     [CellValue.int64 2, CellValue.utf8 ("b")],
     [CellValue.int64 3, CellValue.utf8 ("c")]]
    (by decide) (by decide) (by decide)

/-- C3: each cell transfer operates on the cell at
`(current_row, current_col)` and advances the cursor by exactly one cell in
row-major order: `current_col` increments, and on reaching `ncols` it resets
to 0 while `current_row` increments.  Stated for the BigQuery parser's
`next_loc` and for the Arrow writer's `consume` (for `consume`, below the
batch-size boundary, where no flush resets the counters). -/
theorem c3_cursor_advance (p : BigQuerySourceParser) (w : ArrowPartitionWriter)
    (v : CellValue) (hp : p.current_col < p.ncols)
    (hw : w.current_col < w.schema.length)
    (hwB : (if w.current_col + 1 = w.schema.length then w.current_row + 1
            else w.current_row) < w.batch_size) :
    ((next_loc p).1 = (p.current_row, p.current_col) ∧
     (next_loc p).2.current_col =
       (if p.current_col + 1 = p.ncols then 0 else p.current_col + 1) ∧
     (next_loc p).2.current_row =
       (if p.current_col + 1 = p.ncols then p.current_row + 1 else p.current_row)) ∧
    ((consume w v).1.current_col =
       (if w.current_col + 1 = w.schema.length then 0 else w.current_col + 1) ∧
     (consume w v).1.current_row =
       (if w.current_col + 1 = w.schema.length then w.current_row + 1 else w.current_row) ∧
     (compat (w.schema.getD w.current_col ArrowType.aInt64) v = true →
       (consume w v).1.builders = some
         ((w.builders.getD (List.replicate w.schema.length [])).set w.current_col
           ((w.builders.getD (List.replicate w.schema.length [])).getD
             w.current_col [] ++ [v])))) := by
  constructor
  · refine ⟨rfl, ?_, ?_⟩
    · by_cases hwrap : p.current_col + 1 = p.ncols
      · rw [if_pos hwrap]
        simp [next_loc, hwrap, Nat.mod_self]
      · have hlt : p.current_col + 1 < p.ncols :=
          Nat.lt_of_le_of_ne (Nat.succ_le_of_lt hp) hwrap
        rw [if_neg hwrap]
        simp [next_loc, Nat.mod_eq_of_lt hlt]
    · by_cases hwrap : p.current_col + 1 = p.ncols
      · have hn0 : 0 < p.ncols := Nat.lt_of_le_of_lt (Nat.zero_le _) hp
        rw [if_pos hwrap]
        simp [next_loc, hwrap, Nat.div_self hn0]
      · have hlt : p.current_col + 1 < p.ncols :=
          Nat.lt_of_le_of_ne (Nat.succ_le_of_lt hp) hwrap
        rw [if_neg hwrap]
        simp [next_loc, Nat.div_eq_of_lt hlt]
  · by_cases hcv : compat (w.schema.getD w.current_col ArrowType.aInt64) v = true
    · rw [consume_ok w v hw hcv]
      rw [if_neg (Nat.not_le.mpr hwB)]
      exact ⟨rfl, rfl, fun _ => rfl⟩
    · have hcvf : compat (w.schema.getD w.current_col ArrowType.aInt64) v = false :=
        Bool.eq_false_iff.mpr hcv
      rw [consume_mismatch w v hw hcvf]
      by_cases hwrap : w.current_col + 1 = w.schema.length
      · rw [if_pos hwrap, if_pos hwrap, if_pos hwrap]
        exact ⟨rfl, rfl, fun hc => absurd hc hcv⟩
      · rw [if_neg hwrap, if_neg hwrap, if_neg hwrap]
        exact ⟨rfl, rfl, fun hc => absurd hc hcv⟩

/-- C3 witness: a 2-column parser cursor at (5, 1) wraps to (6, 0); a
2-column writer at column 0 advances to column 1 and appends there. -/
theorem c3_cursor_advance_witness :
    ((next_loc { ncols := 2, current_row := 5, current_col := 1 }).1 = (5, 1) ∧
     (next_loc { ncols := 2, current_row := 5, current_col := 1 }).2.current_col =
       (if 1 + 1 = 2 then 0 else 1 + 1) ∧
     (next_loc { ncols := 2, current_row := 5, current_col := 1 }).2.current_row =
       (if 1 + 1 = 2 then 5 + 1 else 5)) ∧
    ((consume (freshWriter [ArrowType.aInt64, ArrowType.aUtf8] 3)
       (CellValue.int64 9)).1.current_col = (if 0 + 1 = 2 then 0 else 0 + 1) ∧
     (consume (freshWriter [ArrowType.aInt64, ArrowType.aUtf8] 3)
       (CellValue.int64 9)).1.current_row = (if 0 + 1 = 2 then 0 + 1 else 0) ∧
     (compat ([ArrowType.aInt64, ArrowType.aUtf8].getD 0 ArrowType.aInt64)
         (CellValue.int64 9) = true →
       (consume (freshWriter [ArrowType.aInt64, ArrowType.aUtf8] 3)
         (CellValue.int64 9)).1.builders = some
           ((((freshWriter [ArrowType.aInt64, ArrowType.aUtf8] 3).builders).getD
               (List.replicate 2 [])).set 0
             ((((freshWriter [ArrowType.aInt64, ArrowType.aUtf8] 3).builders).getD
               (List.replicate 2 [])).getD 0 [] ++ [CellValue.int64 9])))) :=
  c3_cursor_advance { ncols := 2, current_row := 5, current_col := 1 }
    (freshWriter [ArrowType.aInt64, ArrowType.aUtf8] 3) (CellValue.int64 9)
    (by decide) (by decide) (by decide)

/-- C4: a `consume` whose static value type is incompatible with the tag of
the target column returns a `TypeMismatch` error; the type check precedes
builder allocation and append, so the builders (and the output list) are left
exactly as they were. -/
theorem c4_type_mismatch_no_append (w : ArrowPartitionWriter) (v : CellValue)
    (hcol : w.current_col < w.schema.length)
    (hv : compat (w.schema.getD w.current_col ArrowType.aInt64) v = false) :
    (consume w v).2 = some ArrowError.typeMismatch ∧
    (consume w v).1.builders = w.builders ∧
    (consume w v).1.data = w.data := by
  rw [consume_mismatch w v hcol hv]
  by_cases hwrap : w.current_col + 1 = w.schema.length
  · rw [if_pos hwrap]
    exact ⟨rfl, rfl, rfl⟩
  · rw [if_neg hwrap]
    exact ⟨rfl, rfl, rfl⟩

/-- C4 witness: consuming a string into an `Int64` column surfaces
`TypeMismatch` and touches neither the builders nor the output. -/
theorem c4_type_mismatch_no_append_witness :
    (consume (freshWriter [ArrowType.aInt64] 4) (CellValue.utf8 ("x"))).2 =
      some ArrowError.typeMismatch ∧
    (consume (freshWriter [ArrowType.aInt64] 4) (CellValue.utf8 ("x"))).1.builders =
      (freshWriter [ArrowType.aInt64] 4).builders ∧
    (consume (freshWriter [ArrowType.aInt64] 4) (CellValue.utf8 ("x"))).1.data =
      (freshWriter [ArrowType.aInt64] 4).data :=
  c4_type_mismatch_no_append (freshWriter [ArrowType.aInt64] 4)
    (CellValue.utf8 ("x")) (by decide) (by decide)

/-- The builder vector after a type-correct `consume` that stays below the
flush boundary: the value is appended at the cursor column. -/
theorem consume_ok_noflush (u : ArrowPartitionWriter) (v2 : CellValue)
    (hc : u.current_col < u.schema.length)
    (hv2 : compat (u.schema.getD u.current_col ArrowType.aInt64) v2 = true)
    (hnf : (if u.current_col + 1 = u.schema.length then u.current_row + 1
            else u.current_row) < u.batch_size) :
    (consume u v2).1.builders = some
      ((u.builders.getD (List.replicate u.schema.length [])).set u.current_col
        ((u.builders.getD (List.replicate u.schema.length [])).getD
          u.current_col [] ++ [v2])) := by
  rw [consume_ok u v2 hc hv2]
  rw [if_neg (Nat.not_le.mpr hnf)]

/-- C10: `consume` advances the cursor before the type check, so every call
that fails with `TypeMismatch` still advances the cursor by exactly one cell
(`current_col` increments; on a row wrap `current_col` resets to 0 and
`current_row` increments) while leaving the builders and the output list
untouched; a subsequent type-correct `consume` (below the flush boundary,
where the builders are observable) appends at the advanced cursor column —
the next column, not the one that failed. -/
theorem c10_mismatch_advances_cursor (w : ArrowPartitionWriter) (v : CellValue)
    (hcol : w.current_col < w.schema.length)
    (hv : compat (w.schema.getD w.current_col ArrowType.aInt64) v = false) :
    (consume w v).2 = some ArrowError.typeMismatch ∧
    (consume w v).1.current_col =
      (if w.current_col + 1 = w.schema.length then 0 else w.current_col + 1) ∧
    (consume w v).1.current_row =
      (if w.current_col + 1 = w.schema.length then w.current_row + 1
       else w.current_row) ∧
    (consume w v).1.builders = w.builders ∧
    (consume w v).1.data = w.data ∧
    (∀ v2 : CellValue,
      compat (w.schema.getD ((consume w v).1.current_col) ArrowType.aInt64) v2 = true →
      (w.builders.getD (List.replicate w.schema.length [])).length =
        w.schema.length →
      (if (consume w v).1.current_col + 1 = w.schema.length
        then (consume w v).1.current_row + 1
        else (consume w v).1.current_row) < w.batch_size →
      ∃ bs', (consume (consume w v).1 v2).1.builders = some bs' ∧
        colLen bs' ((consume w v).1.current_col) =
          colLen (w.builders.getD (List.replicate w.schema.length []))
            ((consume w v).1.current_col) + 1 ∧
        ∀ i, i < w.schema.length → i ≠ (consume w v).1.current_col →
          colLen bs' i =
            colLen (w.builders.getD (List.replicate w.schema.length [])) i) := by
  have hmm := consume_mismatch w v hcol hv
  by_cases hwrap : w.current_col + 1 = w.schema.length
  · rw [if_pos hwrap] at hmm
    rw [hmm, if_pos hwrap, if_pos hwrap]
    refine ⟨rfl, rfl, rfl, rfl, rfl, ?_⟩
    intro v2 hv2 hblen hnf
    have hc0 : (0 : Nat) < w.schema.length :=
      Nat.lt_of_le_of_lt (Nat.zero_le _) hcol
    have hb := consume_ok_noflush
      { w with current_row := w.current_row + 1, current_col := 0 } v2 hc0 hv2 hnf
    refine ⟨_, hb, ?_, ?_⟩
    · show colLen ((w.builders.getD (List.replicate w.schema.length [])).set 0
        ((w.builders.getD (List.replicate w.schema.length [])).getD 0 [] ++ [v2])) 0 =
        colLen (w.builders.getD (List.replicate w.schema.length [])) 0 + 1
      rw [colLen_set_self _ _ _ (by rw [hblen]; exact hc0)]
      simp [colLen]
    · intro i hi hne
      show colLen ((w.builders.getD (List.replicate w.schema.length [])).set 0
        ((w.builders.getD (List.replicate w.schema.length [])).getD 0 [] ++ [v2])) i =
        colLen (w.builders.getD (List.replicate w.schema.length [])) i
      exact colLen_set_ne _ _ _ _ (fun h => hne h.symm)
  · rw [if_neg hwrap] at hmm
    rw [hmm, if_neg hwrap, if_neg hwrap]
    refine ⟨rfl, rfl, rfl, rfl, rfl, ?_⟩
    intro v2 hv2 hblen hnf
    have hc1 : w.current_col + 1 < w.schema.length :=
      Nat.lt_of_le_of_ne (Nat.succ_le_of_lt hcol) hwrap
    have hb := consume_ok_noflush
      { w with current_col := w.current_col + 1 } v2 hc1 hv2 hnf
    refine ⟨_, hb, ?_, ?_⟩
    · show colLen ((w.builders.getD (List.replicate w.schema.length [])).set
        (w.current_col + 1)
        ((w.builders.getD (List.replicate w.schema.length [])).getD
          (w.current_col + 1) [] ++ [v2])) (w.current_col + 1) =
        colLen (w.builders.getD (List.replicate w.schema.length []))
          (w.current_col + 1) + 1
      rw [colLen_set_self _ _ _ (by rw [hblen]; exact hc1)]
      simp [colLen]
    · intro i hi hne
      show colLen ((w.builders.getD (List.replicate w.schema.length [])).set
        (w.current_col + 1)
        ((w.builders.getD (List.replicate w.schema.length [])).getD
          (w.current_col + 1) [] ++ [v2])) i =
        colLen (w.builders.getD (List.replicate w.schema.length [])) i
      exact colLen_set_ne _ _ _ _ (fun h => hne h.symm)

/-- C10 witness, exercising the row-wrap case on a single-column schema: a
failed consume at the last column wraps the cursor to (row+1, 0) with the
builders untouched, and the next type-correct consume appends at the new
cursor column. -/
theorem c10_mismatch_advances_cursor_witness :
    (consume (freshWriter [ArrowType.aInt64] 4) (CellValue.utf8 ("x"))).2 =
      some ArrowError.typeMismatch ∧
    (consume (freshWriter [ArrowType.aInt64] 4)
      (CellValue.utf8 ("x"))).1.current_col = 0 ∧
    (consume (freshWriter [ArrowType.aInt64] 4)
      (CellValue.utf8 ("x"))).1.current_row = 1 ∧
    (consume (freshWriter [ArrowType.aInt64] 4)
      (CellValue.utf8 ("x"))).1.builders = none ∧
    (consume (freshWriter [ArrowType.aInt64] 4)
      (CellValue.utf8 ("x"))).1.data = [] ∧
    (∃ bs', (consume (consume (freshWriter [ArrowType.aInt64] 4)
        (CellValue.utf8 ("x"))).1 (CellValue.int64 5)).1.builders = some bs' ∧
      colLen bs' 0 = colLen (List.replicate 1 []) 0 + 1 ∧
      ∀ i, i < 1 → i ≠ 0 → colLen bs' i = colLen (List.replicate 1 []) i) := by
  obtain ⟨h1, h2, h3, h4, h5, h6⟩ :=
    c10_mismatch_advances_cursor (freshWriter [ArrowType.aInt64] 4)
      (CellValue.utf8 ("x")) (by decide) (by decide)
  exact ⟨h1, h2, h3, h4, h5,
    h6 (CellValue.int64 5) (by decide) (by decide) (by decide)⟩

/-- C5 counterexample: `set_schema` on the degenerate zero-column schema does
not fail with a `SchemaError` — it returns success and installs the empty
schema, refuting the claim at this concrete input. -/
theorem c5_zero_columns_accepted_cex :
    (set_schema (new_with_batch_size 8) SchemaA.empty).2 = none ∧
    (set_schema (new_with_batch_size 8) SchemaA.empty).1.schema = SchemaA.empty :=
  ⟨rfl, rfl⟩

/-- C5 amended: `set_schema` accepts the zero-column schema on every
destination state: it reports no error and installs the empty schema and the
empty realized arrow schema. -/
theorem c5_zero_columns_installed (d : ArrowDestination) :
    (set_schema d SchemaA.empty).2 = none ∧
    (set_schema d SchemaA.empty).1.schema = SchemaA.empty ∧
    (set_schema d SchemaA.empty).1.arrow_schema = [] :=
  ⟨rfl, rfl, rfl⟩

/-- C6 counterexample: on an unmapped arrow type (`Date32`), `ty_from_arrow`
and hence `table_create` hit the `unimplemented!` macro — a Rust panic that
aborts the call — instead of reporting an `UnsupportedType` error value (the
DuckDB `TableCreateError` type has no such variant). -/
theorem c6_unsupported_panics_cex :
    ty_from_arrow DataType.date32 = Except.error RustPanic.unimplementedMacro ∧
    table_create_ddl ("t")
        [{ name := ("d"), dtype := DataType.date32, nullable := true }] =
      Except.error RustPanic.unimplementedMacro := by
  exact ⟨rfl, rfl⟩

/-- C6 amended: every arrow type outside the mapping table panics via
`unimplemented!` (or `todo!`) — never a silent coercion, but not a
recoverable `UnsupportedType` error either — while every mapped type is
translated exactly as the table states. -/
theorem c6_type_mapping :
    ty_from_arrow DataType.null = Except.ok ("BIGINT") ∧
    ty_from_arrow DataType.boolean = Except.ok ("BOOLEAN") ∧
    ty_from_arrow DataType.int8 = Except.ok ("TINYINT") ∧
    ty_from_arrow DataType.int16 = Except.ok ("SMALLINT") ∧
    ty_from_arrow DataType.int32 = Except.ok ("INTEGER") ∧
    ty_from_arrow DataType.int64 = Except.ok ("BIGINT") ∧
    ty_from_arrow DataType.uint8 = Except.ok ("UTINYINT") ∧
    ty_from_arrow DataType.uint16 = Except.ok ("USMALLINT") ∧
    ty_from_arrow DataType.uint32 = Except.ok ("UINTEGER") ∧
    ty_from_arrow DataType.uint64 = Except.ok ("UBIGINT") ∧
    ty_from_arrow DataType.float16 = Except.ok ("REAL") ∧
    ty_from_arrow DataType.float32 = Except.ok ("REAL") ∧
    ty_from_arrow DataType.float64 = Except.ok ("DOUBLE") ∧
    ty_from_arrow (DataType.timestamp TimeUnit.microsecond) = Except.ok ("TIMESTAMP") ∧
    ty_from_arrow (DataType.timestamp TimeUnit.second) = Except.ok ("BIGINT") ∧
    ty_from_arrow (DataType.timestamp TimeUnit.millisecond) = Except.ok ("BIGINT") ∧
    ty_from_arrow (DataType.timestamp TimeUnit.nanosecond) = Except.ok ("BIGINT") ∧
    ty_from_arrow DataType.binary = Except.ok ("BLOB") ∧
    ty_from_arrow DataType.fixedSizeBinary = Except.ok ("BLOB") ∧
    ty_from_arrow DataType.largeBinary = Except.ok ("BLOB") ∧
    ty_from_arrow DataType.utf8 = Except.ok ("VARCHAR") ∧
    ty_from_arrow DataType.largeUtf8 = Except.ok ("VARCHAR") ∧
    ty_from_arrow DataType.date32 = Except.error RustPanic.unimplementedMacro ∧
    ty_from_arrow DataType.date64 = Except.error RustPanic.unimplementedMacro ∧
    ty_from_arrow DataType.time32 = Except.error RustPanic.unimplementedMacro ∧
    ty_from_arrow DataType.time64 = Except.error RustPanic.unimplementedMacro ∧
    ty_from_arrow DataType.duration = Except.error RustPanic.unimplementedMacro ∧
    ty_from_arrow DataType.interval = Except.error RustPanic.unimplementedMacro ∧
    ty_from_arrow DataType.decimal128 = Except.error RustPanic.unimplementedMacro ∧
    ty_from_arrow DataType.decimal256 = Except.error RustPanic.unimplementedMacro ∧
    ty_from_arrow DataType.list = Except.error RustPanic.unimplementedMacro ∧
    ty_from_arrow DataType.fixedSizeList = Except.error RustPanic.unimplementedMacro ∧
    ty_from_arrow DataType.largeList = Except.error RustPanic.unimplementedMacro ∧
    ty_from_arrow DataType.structType = Except.error RustPanic.unimplementedMacro ∧
    ty_from_arrow DataType.union = Except.error RustPanic.unimplementedMacro ∧
    ty_from_arrow DataType.dictionary = Except.error RustPanic.unimplementedMacro ∧
    ty_from_arrow DataType.map = Except.error RustPanic.unimplementedMacro ∧
    ty_from_arrow DataType.runEndEncoded = Except.error RustPanic.unimplementedMacro ∧
    ty_from_arrow DataType.binaryView = Except.error RustPanic.todoMacro ∧
    ty_from_arrow DataType.utf8View = Except.error RustPanic.todoMacro ∧
    ty_from_arrow DataType.listView = Except.error RustPanic.todoMacro ∧
    ty_from_arrow DataType.largeListView = Except.error RustPanic.todoMacro :=
  ⟨rfl, rfl, rfl, rfl, rfl, rfl, rfl, rfl, rfl, rfl, rfl, rfl, rfl, rfl, rfl, rfl, rfl, rfl, rfl, rfl, rfl, rfl, rfl, rfl, rfl, rfl, rfl, rfl, rfl, rfl, rfl, rfl, rfl, rfl, rfl, rfl, rfl, rfl, rfl, rfl, rfl, rfl⟩

/-- C7: `finish` fails with the writers-outstanding error while any partition
writer still holds the shared output handle; with no writer outstanding it
surfaces `MutexPoisoned` if the output mutex is poisoned, and otherwise
returns exactly the accumulated batch list; a writer flush pushes its batch
at the end of that list (push order). -/
theorem c7_finish_spec (d : ArrowDestination) :
    (0 < d.outstandingWriters → finish d = Except.error ArrowError.writersOutstanding) ∧
    (d.outstandingWriters = 0 → d.dataPoisoned = true →
      finish d = Except.error ArrowError.mutexPoisoned) ∧
    (d.outstandingWriters = 0 → d.dataPoisoned = false →
      finish d = Except.ok d.data) ∧
    (∀ (w : ArrowPartitionWriter) (bs : List (List CellValue)),
      w.builders = some bs → rectangular bs = true →
      (flush w).1.data = w.data ++ [bs] ∧ (flush w).2 = none) := by
  refine ⟨?_, ?_, ?_, ?_⟩
  · intro h
    simp [finish, Nat.pos_iff_ne_zero.mp h]
  · intro h0 hp
    simp [finish, h0, hp]
  · intro h0 hp
    simp [finish, h0, hp]
  · intro w bs hb hrect
    simp [flush, hb, hrect]

/-- C7 witness: one outstanding writer makes `finish` fail; a poisoned mutex
surfaces `MutexPoisoned`; otherwise the accumulated batches come back; a
flush appends its batch at the end. -/
theorem c7_finish_spec_witness :
    finish { ArrowDestination.new with outstandingWriters := 1 } =
      Except.error ArrowError.writersOutstanding ∧
    finish { ArrowDestination.new with dataPoisoned := true } =
      Except.error ArrowError.mutexPoisoned ∧
    finish { ArrowDestination.new with data := [[[CellValue.int64 7]]] } =
      Except.ok [[[CellValue.int64 7]]] ∧
    (flush { freshWriter [ArrowType.aInt64] 4 with
        builders := some [[CellValue.int64 7]],
        data := [[[CellValue.int64 5]]] }).1.data =
      [[[CellValue.int64 5]]] ++ [[[CellValue.int64 7]]] :=
  ⟨(c7_finish_spec _).1 (by decide),
   (c7_finish_spec _).2.1 rfl rfl,
   (c7_finish_spec _).2.2.1 rfl rfl,
   ((c7_finish_spec ArrowDestination.new).2.2.2 _ _ rfl (by decide)).1⟩

/-- C8: `alloc_writer` with any order other than `RowMajor` fails with
`UnsupportedDataOrder`, creating no writer and leaving the destination state
exactly unchanged, even though the destination declares `ColumnMajor` among
its supported data orders. -/
theorem c8_alloc_writer_reject (d : ArrowDestination) (ord : DataOrder)
    (h : ord ≠ DataOrder.rowMajor) :
    alloc_writer d ord = (d, Except.error ArrowError.unsupportedDataOrder) ∧
    DataOrder.columnMajor ∈ DATA_ORDERS := by
  constructor
  · simp [alloc_writer, h]
  · simp [DATA_ORDERS]

/-- C8 witness: `ColumnMajor` is rejected on a fresh destination with the
state returned untouched. -/
theorem c8_alloc_writer_reject_witness :
    alloc_writer ArrowDestination.new DataOrder.columnMajor =
      (ArrowDestination.new, Except.error ArrowError.unsupportedDataOrder) ∧
    DataOrder.columnMajor ∈ DATA_ORDERS :=
  c8_alloc_writer_reject ArrowDestination.new DataOrder.columnMajor (by decide)

/-- C9: with the output mutex healthy, `get_one` pops and returns the most
recently pushed batch (LIFO), returns `none` exactly when the list is empty,
and leaves the remaining batches in place without reordering or
duplication (the remaining list is the original minus its last element). -/
theorem c9_get_one_lifo (d : ArrowDestination) (h : d.dataPoisoned = false) :
    (get_one d).2 = Except.ok d.data.getLast? ∧
    (get_one d).1.data = d.data.dropLast ∧
    d.data = (get_one d).1.data ++ d.data.getLast?.toList ∧
    ((get_one d).2 = Except.ok none ↔ d.data = []) := by
  refine ⟨?_, ?_, ?_, ?_⟩
  · simp [get_one, h]
  · simp [get_one, h]
  · simp only [get_one, h, Bool.false_eq_true, if_false]
    exact (dropLast_append_getLast?_toList d.data).symm
  · simp only [get_one, h, Bool.false_eq_true, if_false]
    rw [Except.ok.injEq]
    exact List.getLast?_eq_none_iff

/-- C9 witness: popping from a two-batch list returns the second batch and
leaves the first. -/
theorem c9_get_one_lifo_witness :
    (get_one { ArrowDestination.new with
        data := [[[CellValue.int64 1]], [[CellValue.int64 2]]] }).2 =
      Except.ok ([[[CellValue.int64 1]], [[CellValue.int64 2]]] :
        List RecordBatch).getLast? ∧
    (get_one { ArrowDestination.new with
        data := [[[CellValue.int64 1]], [[CellValue.int64 2]]] }).1.data =
      ([[[CellValue.int64 1]], [[CellValue.int64 2]]] : List RecordBatch).dropLast ∧
    ([[[CellValue.int64 1]], [[CellValue.int64 2]]] : List RecordBatch) =
      (get_one { ArrowDestination.new with
        data := [[[CellValue.int64 1]], [[CellValue.int64 2]]] }).1.data ++
      ([[[CellValue.int64 1]], [[CellValue.int64 2]]] :
        List RecordBatch).getLast?.toList ∧
    ((get_one { ArrowDestination.new with
        data := [[[CellValue.int64 1]], [[CellValue.int64 2]]] }).2 =
        Except.ok none ↔
      ([[[CellValue.int64 1]], [[CellValue.int64 2]]] : List RecordBatch) = []) :=
  c9_get_one_lifo { ArrowDestination.new with
    data := [[[CellValue.int64 1]], [[CellValue.int64 2]]] } (by decide)
